import Mathlib

/-!
Verification of the data retrieval, normalization and aggregation pipeline of
`src/app.py` (ERPNext dashboard).  Every definition below is a shallow
embedding of a function of the source file; the line numbers in the doc
comments refer to `src/app.py`.

Python floats are modelled as `ℚ` (rational numbers); a field whose pandas
value can be `NaN` (missing value, or unparseable input under
`pd.to_numeric(errors="coerce")`) is modelled as `Option ℚ`, with `none`
standing for absent/NaN.
-/

namespace MoneyFlow

/-! ### Pagination loop

All five paginated fetchers (`fetch_invoices` lines 203-209,
`fetch_purchase_invoices` lines 313-319, `list_customers` lines 240-245,
`list_suppliers` lines 267-272, `list_companies_df` lines 159-164) share the
same loop:

    start_idx = 0
    while True:
        page = api_get(resource, limit_start=start_idx)
        if not page:
            break
        all_rows.extend(page)
        start_idx += len(page)

`fetchRun`/`fetchCalls` model this loop against a scripted server: the
server answers the i-th request with `script[i]` and answers with an empty
page once the script is exhausted. `fetchRun` is the concatenated result,
`fetchCalls` the number of requests the loop issues. -/

def fetchRun {α : Type} : List (List α) → List α
  | [] => []
  | p :: rest => if p.isEmpty then [] else p ++ fetchRun rest

def fetchCalls {α : Type} : List (List α) → Nat
  | [] => 1
  | p :: rest => if p.isEmpty then 1 else 1 + fetchCalls rest

/-- Index of the first page of the script that is empty or strictly shorter
than the most recently returned page (the stopping rule claimed by the
spec); `prev` is the length of the previously returned page, if any. -/
def firstShortOrEmpty {α : Type} (prev : Option Nat) : List (List α) → Option Nat
  | [] => none
  | p :: rest =>
      if p.isEmpty then some 0
      else
        match prev with
        | some n =>
            if p.length < n then some 0
            else (firstShortOrEmpty (some p.length) rest).map (· + 1)
        | none => (firstShortOrEmpty (some p.length) rest).map (· + 1)

/-! ### Pagination against an offset-addressed backing set

`pageAt rows S off` is the page a server returns when it stores the row set
`rows`, silently caps the effective page size at `S` (ignoring the
requested `limit_page_length` hint of 1000), and is asked for rows starting
at offset `off`.  `fetchFrom` is the same `while True` loop as above run
against such a server, and `fetchTrace` records the sequence of
`limit_start` offsets the loop requests. -/

def pageAt {α : Type} (rows : List α) (S off : Nat) : List α :=
  (rows.drop off).take S

def fetchFrom {α : Type} (rows : List α) (S : Nat) (off : Nat) : List α :=
  if h : (pageAt rows S off).isEmpty then []
  else pageAt rows S off ++ fetchFrom rows S (off + (pageAt rows S off).length)
termination_by rows.length - off
decreasing_by
  simp only [pageAt, List.isEmpty_eq_true] at h
  have h1 : rows.drop off ≠ [] := by
    intro hd
    exact h (by simp [hd])
  have h2 : off < rows.length := by
    by_contra hle
    exact h1 (List.drop_eq_nil_of_le (by omega))
  have h3 : 0 < ((rows.drop off).take S).length :=
    List.length_pos.mpr (by simpa [pageAt] using h)
  simp only [pageAt]
  omega

def fetchTrace {α : Type} (rows : List α) (S : Nat) (off : Nat) : List Nat :=
  if h : (pageAt rows S off).isEmpty then [off]
  else off :: fetchTrace rows S (off + (pageAt rows S off).length)
termination_by rows.length - off
decreasing_by
  simp only [pageAt, List.isEmpty_eq_true] at h
  have h1 : rows.drop off ≠ [] := by
    intro hd
    exact h (by simp [hd])
  have h2 : off < rows.length := by
    by_contra hle
    exact h1 (List.drop_eq_nil_of_le (by omega))
  have h3 : 0 < ((rows.drop off).take S).length :=
    List.length_pos.mpr (by simpa [pageAt] using h)
  simp only [pageAt]
  omega

/-! ### Invoices and the listing endpoint

`Invoice` models a Sales Invoice record as stored by the remote ERPNext
server, with the fields of `BASE_FIELDS` (lines 172-176) plus `docstatus`
(which the server filters on even though it is not in the selected field
list).  Dates are modelled as `Int` day numbers, money fields as
`Option ℚ` (`none` = null/unparseable). -/

structure Invoice where
  name : String
  company : String
  customer : String
  posting_date : Int
  due_date : Option Int
  base_grand_total : Option ℚ
  grand_total : Option ℚ
  currency : String
  outstanding_amount : Option ℚ
  status : String
  conversion_rate : Option ℚ
  docstatus : Nat
deriving DecidableEq

/-- The filter triples `fetch_invoices` and `fetch_purchase_invoices` build
(lines 190-194 and 301-304): `["company","=",co]`,
`["posting_date",">=",s]`, `["posting_date","<=",e]`,
`["docstatus","in",[0,1]]`, `["docstatus","=",1]`,
`["outstanding_amount",">",0]` (the extra filter of
`fetch_outstanding_invoices`, line 229). -/
inductive Filter where
  | companyEq (c : String)
  | postingGe (d : Int)
  | postingLe (d : Int)
  | docstatusIn (l : List Nat)
  | docstatusEq (s : Nat)
  | outstandingGt (q : ℚ)
deriving DecidableEq

def Invoice.matches (inv : Invoice) : Filter → Bool
  | .companyEq c => inv.company == c
  | .postingGe d => d ≤ inv.posting_date
  | .postingLe d => inv.posting_date ≤ d
  | .docstatusIn l => l.contains inv.docstatus
  | .docstatusEq s => inv.docstatus == s
  | .outstandingGt q =>
      match inv.outstanding_amount with
      | some v => q < v
      | none => false

/-- Purchase Invoice record (`PURCHASE_FIELDS`, lines 286-288).  `supplier`
is nullable (the flow join later applies
`dropna(subset=["supplier","company"])`; `company` is a mandatory link
field in ERPNext so it is modelled as always present). -/
structure PurchaseInvoice where
  name : String
  company : String
  supplier : Option String
  posting_date : Int
  base_grand_total : Option ℚ
  grand_total : Option ℚ
  currency : String
  status : String
  docstatus : Nat
  outstanding_amount : Option ℚ
deriving DecidableEq

def PurchaseInvoice.matches (p : PurchaseInvoice) : Filter → Bool
  | .companyEq c => p.company == c
  | .postingGe d => d ≤ p.posting_date
  | .postingLe d => p.posting_date ≤ d
  | .docstatusIn l => l.contains p.docstatus
  | .docstatusEq s => p.docstatus == s
  | .outstandingGt q =>
      match p.outstanding_amount with
      | some v => q < v
      | none => false

/-- Date swap of `fetch_invoices`/`fetch_purchase_invoices`
(lines 183-184, 294-295): `if start and end and start > end: swap`. -/
def swapDates (start stop : Option Int) : Option Int × Option Int :=
  match start, stop with
  | some s, some e => if e < s then (some e, some s) else (some s, some e)
  | s, e => (s, e)

/-- The filter list built for one company (lines 190-194/301-304): company
equality, then both inclusive date bounds when both dates are given, then
the docstatus filter, then any extra filters. -/
def invoiceFilters (co : String) (start stop : Option Int) (include_drafts : Bool)
    (extra : List Filter) : List Filter :=
  [Filter.companyEq co]
    ++ (match start, stop with
        | some s, some e => [Filter.postingGe s, Filter.postingLe e]
        | _, _ => [])
    ++ [if include_drafts then Filter.docstatusIn [0, 1] else Filter.docstatusEq 1]
    ++ extra

/-- The remote listing endpoint: rows of the backing set matching every
filter (ERPNext combines the filter triples conjunctively).  The
pagination loop retrieves this full matching set (`fetchRun`/`fetchFrom`
above model the loop itself); `order_by` only affects row order, which no
claim depends on. -/
def selectInvoices (db : List Invoice) (fs : List Filter) : List Invoice :=
  db.filter (fun inv => fs.all inv.matches)

def selectPurchases (db : List PurchaseInvoice) (fs : List Filter) : List PurchaseInvoice :=
  db.filter (fun p => fs.all p.matches)

/-- Normalized invoice row as produced by the tail of `fetch_invoices`
(lines 211-221): `TTC = base_grand_total` (kept nullable: no fillna on
line 217), `conversion_rate` coerced with default 1.0,
`outstanding_amount` coerced with default 0.0, and the derived
`base_outstanding = outstanding_amount * conversion_rate`. -/
structure NormInvoice where
  name : String
  company : String
  customer : String
  posting_date : Int
  due_date : Option Int
  ttc : Option ℚ
  currency : String
  status : String
  conversion_rate : ℚ
  outstanding_amount : ℚ
  base_outstanding : ℚ
deriving DecidableEq

def normalizeInvoice (inv : Invoice) : NormInvoice :=
  { name := inv.name
    company := inv.company
    customer := inv.customer
    posting_date := inv.posting_date
    due_date := inv.due_date
    ttc := inv.base_grand_total
    currency := inv.currency
    status := inv.status
    conversion_rate := inv.conversion_rate.getD 1
    outstanding_amount := inv.outstanding_amount.getD 0
    base_outstanding := inv.outstanding_amount.getD 0 * inv.conversion_rate.getD 1 }

/-- Rows accumulated by the per-company loop of `fetch_invoices`
(lines 189-209): for each company, the full matching set of the listing
endpoint, concatenated in company order. -/
def fetchSelected (db : List Invoice) (companies : List String) (start stop : Option Int)
    (include_drafts : Bool) (extra : List Filter) : List Invoice :=
  companies.flatMap (fun co =>
    selectInvoices db
      (invoiceFilters co (swapDates start stop).1 (swapDates start stop).2 include_drafts extra))

/-- `fetch_invoices` (lines 178-221).  The first component is the
normalized result table; the second is the list of companies the loop
queried — one entry per company stands for the (one or more) HTTP requests
of that company's pagination loop, and the `if not companies` guard on
lines 181-182 returns before any request is issued. -/
def fetch_invoices (db : List Invoice) (companies : List String) (start stop : Option Int)
    (include_drafts : Bool) (extra : List Filter) : List NormInvoice × List String :=
  if companies.isEmpty then ([], [])
  else ((fetchSelected db companies start stop include_drafts extra).map normalizeInvoice,
    companies)

/-- `fetch_outstanding_invoices` (lines 223-232): `fetch_invoices` with no
date bounds, drafts excluded, and the extra filter
`["outstanding_amount", ">", 0]`. -/
def fetch_outstanding_invoices (db : List Invoice) (companies : List String) :
    List NormInvoice × List String :=
  fetch_invoices db companies none none false [Filter.outstandingGt 0]

def fetchPurchaseSelected (db : List PurchaseInvoice) (companies : List String)
    (start stop : Option Int) (include_drafts : Bool) : List PurchaseInvoice :=
  companies.flatMap (fun co =>
    selectPurchases db
      (invoiceFilters co (swapDates start stop).1 (swapDates start stop).2 include_drafts []))

/-- `fetch_purchase_invoices` (lines 290-326), with the same reading of the
second component as in `fetch_invoices`. -/
def fetch_purchase_invoices (db : List PurchaseInvoice) (companies : List String)
    (start stop : Option Int) (include_drafts : Bool) :
    List PurchaseInvoice × List String :=
  if companies.isEmpty then ([], [])
  else (fetchPurchaseSelected db companies start stop include_drafts, companies)

/-! ### Customers, suppliers, companies -/

/-- Raw Customer record (fields requested on line 236).  String fields are
nullable; coordinates are the result of permissive numeric parsing
(`pd.to_numeric(errors="coerce")`, lines 255-256), `none` = NaN. -/
structure Customer where
  name : String
  customer_name : Option String
  mobile_no : Option String
  territory : Option String
  custom_lat : Option ℚ
  custom_lon : Option ℚ
deriving DecidableEq

structure CustomerRow where
  name : String
  customer_name : Option String
  mobile_no : Option String
  territory : Option String
  display_customer : String
  custom_lat : Option ℚ
  custom_lon : Option ℚ
deriving DecidableEq

/-- Display-name fallback of `list_customers` (lines 250-253) and
`list_suppliers` (lines 278-280):
`disp = preferred.fillna(""); disp = disp.replace("", nan);
display = disp.fillna(name)`. -/
def displayName (preferred : Option String) (ident : String) : String :=
  if preferred.getD "" = "" then ident else preferred.getD ""

def customerRow (c : Customer) : CustomerRow :=
  { name := c.name
    customer_name := c.customer_name
    mobile_no := c.mobile_no
    territory := c.territory
    display_customer := displayName c.customer_name c.name
    custom_lat := c.custom_lat
    custom_lon := c.custom_lon }

/-- `list_customers` (lines 234-257); pagination is modelled by
`fetchRun`/`fetchFrom` above, so the backing set arrives whole. -/
def list_customers (db : List Customer) : List CustomerRow :=
  db.map customerRow

/-- Raw Supplier record (fields requested on line 263). -/
structure Supplier where
  name : String
  supplier_name : Option String
  supplier_group : Option String
  mobile_no : Option String
  custom_lat : Option ℚ
  custom_lon : Option ℚ
deriving DecidableEq

structure SupplierRow where
  name : String
  supplier_name : Option String
  supplier_group : Option String
  mobile_no : Option String
  display_supplier : String
  custom_lat : Option ℚ
  custom_lon : Option ℚ
deriving DecidableEq

def supplierRow (s : Supplier) : SupplierRow :=
  { name := s.name
    supplier_name := s.supplier_name
    supplier_group := s.supplier_group
    mobile_no := s.mobile_no
    display_supplier := displayName s.supplier_name s.name
    custom_lat := s.custom_lat
    custom_lon := s.custom_lon }

/-- `list_suppliers` (lines 260-284). -/
def list_suppliers (db : List Supplier) : List SupplierRow :=
  db.map supplierRow

/-- Company row of `list_companies_df` (lines 153-170): name plus optional
coordinates, already numerically coerced. -/
structure Company where
  name : String
  custom_lat : Option ℚ
  custom_lon : Option ℚ
deriving DecidableEq

/-! ### Coordinate validity filter -/

/-- The row mask of `filter_valid_coords` (line 336):
`lat.notna & lon.notna & ~((lat == 0) & (lon == 0))`. -/
def validCoord : Option ℚ → Option ℚ → Bool
  | some la, some lo => !(la == 0 && lo == 0)
  | _, _ => false

/-- `filter_valid_coords` (lines 329-337), generic in the row type with the
two coordinate columns given as projections.  The `pd.to_numeric`
re-coercion on lines 334-335 is the identity here because every caller
passes already-coerced `Option ℚ` columns. -/
def filter_valid_coords {α : Type} (rows : List α) (lat lon : α → Option ℚ) : List α :=
  rows.filter (fun r => validCoord (lat r) (lon r))

/-- Customer plot set of the Map screen (line 757):
`filter_valid_coords(data_c, "custom_lat", "custom_lon")`. -/
def plotCustomers (db : List Customer) : List CustomerRow :=
  filter_valid_coords (list_customers db) (fun r => r.custom_lat) (fun r => r.custom_lon)

/-- Supplier plot set of the Map screen (line 844). -/
def plotSuppliers (db : List Supplier) : List SupplierRow :=
  filter_valid_coords (list_suppliers db) (fun r => r.custom_lat) (fun r => r.custom_lon)

/-! ### Supplier → Company flow join (lines 927-962) -/

/-- Supplier coordinate table of the flow join (line 938):
suppliers with valid coordinates. -/
def suppCoordsOf (sdb : List Supplier) : List SupplierRow :=
  filter_valid_coords (list_suppliers sdb) (fun r => r.custom_lat) (fun r => r.custom_lon)

/-- Company coordinate table of the flow join (line 931). -/
def compCoordsOf (cdb : List Company) : List Company :=
  filter_valid_coords cdb (fun r => r.custom_lat) (fun r => r.custom_lon)

/-- The distinct (supplier, company) keys of
`pinv[["supplier","company","base_grand_total"]].dropna(subset=["supplier","company"]).groupby(["supplier","company"])`
(lines 945-948).  Pandas sorts group keys; key order is irrelevant to every
claim, so `dedup` is used. -/
def flowPairs (pinv : List PurchaseInvoice) : List (String × String) :=
  (pinv.filterMap (fun p => p.supplier.map (fun s => (s, p.company)))).dedup

/-- The summed `base_grand_total` of one (supplier, company) group
(line 948); pandas `sum` skips NaN, hence `getD 0`. -/
def pairAmount (pinv : List PurchaseInvoice) (s c : String) : ℚ :=
  ((pinv.filter (fun p => p.supplier == some s && p.company == c)).map
    (fun p => p.base_grand_total.getD 0)).sum

structure FlowEdge where
  supplier : String
  company : String
  amount : ℚ
  sup_lat : ℚ
  sup_lon : ℚ
  comp_lat : ℚ
  comp_lon : ℚ
deriving DecidableEq

/-- The inner merges of lines 949-951 for one group key: every supplier
coordinate row whose name matches, paired with every company coordinate
row whose name matches.  The coordinates of a matching row are `some`
(they passed `filter_valid_coords`); `getD 0` extracts the value. -/
def flowEdgesFor (pinv : List PurchaseInvoice) (supp : List SupplierRow)
    (comp : List Company) (sc : String × String) : List FlowEdge :=
  (supp.filter (fun srow => srow.name == sc.1)).flatMap (fun srow =>
    (comp.filter (fun crow => crow.name == sc.2)).map (fun crow =>
      { supplier := sc.1
        company := sc.2
        amount := pairAmount pinv sc.1 sc.2
        sup_lat := srow.custom_lat.getD 0
        sup_lon := srow.custom_lon.getD 0
        comp_lat := crow.custom_lat.getD 0
        comp_lon := crow.custom_lon.getD 0 }))

/-- The flow table (lines 943-951): empty unless there are purchase rows
and both coordinate tables are non-empty (line 944), otherwise the grouped
sums inner-joined with both coordinate tables. -/
def flows (pinv : List PurchaseInvoice) (sdb : List Supplier) (cdb : List Company) :
    List FlowEdge :=
  if pinv.isEmpty || (compCoordsOf cdb).isEmpty || (suppCoordsOf sdb).isEmpty then []
  else (flowPairs pinv).flatMap (flowEdgesFor pinv (suppCoordsOf sdb) (compCoordsOf cdb))

/-- A (supplier, company) pair qualifies for the flow output: it has at
least one purchase row in the period, its supplier has valid coordinates,
and its company has valid coordinates. -/
def flowQualifies (pinv : List PurchaseInvoice) (sdb : List Supplier) (cdb : List Company)
    (s c : String) : Prop :=
  (∃ p ∈ pinv, p.supplier = some s ∧ p.company = c)
    ∧ (∃ srow ∈ sdb, srow.name = s ∧ validCoord srow.custom_lat srow.custom_lon = true)
    ∧ (∃ crow ∈ cdb, crow.name = c ∧ validCoord crow.custom_lat crow.custom_lon = true)

instance (pinv : List PurchaseInvoice) (sdb : List Supplier) (cdb : List Company)
    (s c : String) : Decidable (flowQualifies pinv sdb cdb s c) := by
  unfold flowQualifies
  infer_instance

/-! ### Flow line width (lines 957-962) -/

/-- `amt.max()` for a non-empty series (pandas max of the amount column). -/
def maxAmount : List ℚ → ℚ
  | [] => 0
  | a :: as => as.foldl max a

/-- Width assigned to one flow row (lines 957-962):
`(amt / amt.max() * (w * 2)).clip(lower=w, upper=w*2)` when `amt.max() > 0`,
otherwise the configured base width `w` (`flow_px`). -/
def flowWidth (es : List FlowEdge) (base : ℚ) (e : FlowEdge) : ℚ :=
  if 0 < maxAmount (es.map (fun x => x.amount)) then
    min (max (e.amount / maxAmount (es.map (fun x => x.amount)) * (base * 2)) base) (base * 2)
  else base

/-! ### Concrete records for the spec scenarios -/

/-- Scenario invoice `inv1`: outstanding 200, rate 1.0, submitted. -/
def exInv1 : Invoice :=
  { name := "INV-1", company := "Co", customer := "Cust1", posting_date := 10
    due_date := some 40, base_grand_total := some 200, grand_total := some 200
    currency := "DZD", outstanding_amount := some 200, status := "Unpaid"
    conversion_rate := some 1, docstatus := 1 }

/-- Scenario invoice `inv2`: outstanding 0, submitted. -/
def exInv2 : Invoice :=
  { name := "INV-2", company := "Co", customer := "Cust2", posting_date := 11
    due_date := some 41, base_grand_total := some 300, grand_total := some 300
    currency := "DZD", outstanding_amount := some 0, status := "Paid"
    conversion_rate := some 1, docstatus := 1 }

/-- Scenario invoice `inv3`: outstanding 50, draft. -/
def exInv3 : Invoice :=
  { name := "INV-3", company := "Co", customer := "Cust3", posting_date := 12
    due_date := some 42, base_grand_total := some 50, grand_total := some 50
    currency := "DZD", outstanding_amount := some 50, status := "Draft"
    conversion_rate := some 1, docstatus := 0 }

def exSalesDb : List Invoice := [exInv1, exInv2, exInv3]

/-- Flow scenario purchase row (S1, C1, 100). -/
def exP1 : PurchaseInvoice :=
  { name := "PINV-1", company := "C1", supplier := some "S1", posting_date := 5
    base_grand_total := some 100, grand_total := some 100, currency := "DZD"
    status := "Paid", docstatus := 1, outstanding_amount := some 0 }

/-- Flow scenario purchase row (S2, C2, 50). -/
def exP2 : PurchaseInvoice :=
  { name := "PINV-2", company := "C2", supplier := some "S2", posting_date := 6
    base_grand_total := some 50, grand_total := some 50, currency := "DZD"
    status := "Paid", docstatus := 1, outstanding_amount := some 0 }

def exPinv : List PurchaseInvoice := [exP1, exP2]

/-- Flow scenario suppliers: coordinates known only for S1. -/
def exSdb : List Supplier :=
  [{ name := "S1", supplier_name := some "Supplier One", supplier_group := none
     mobile_no := none, custom_lat := some 2, custom_lon := some 3 },
   { name := "S2", supplier_name := some "Supplier Two", supplier_group := none
     mobile_no := none, custom_lat := none, custom_lon := none }]

/-- Flow scenario companies: coordinates known for both C1 and C2. -/
def exCdb : List Company :=
  [{ name := "C1", custom_lat := some 4, custom_lon := some 5 },
   { name := "C2", custom_lat := some 6, custom_lon := some 7 }]

/-- Customer with real coordinates and a non-blank display name. -/
def exCustGood : Customer :=
  { name := "CU-1", customer_name := some "Alpha", mobile_no := none
    territory := none, custom_lat := some 1, custom_lon := some 2 }

/-- Customer sitting at the (0,0) sentinel coordinates. -/
def exCustZero : Customer :=
  { name := "CU-2", customer_name := some "Beta", mobile_no := none
    territory := none, custom_lat := some 0, custom_lon := some 0 }

/-- Customer with one coordinate present and the other missing. -/
def exCustHalf : Customer :=
  { name := "CU-3", customer_name := some "Gamma", mobile_no := none
    territory := none, custom_lat := some 3, custom_lon := none }

/-- Customer whose preferred display name is the empty string. -/
def exCustBlank : Customer :=
  { name := "CU-4", customer_name := some "", mobile_no := none
    territory := none, custom_lat := none, custom_lon := none }

def exCustDb : List Customer := [exCustGood, exCustZero, exCustHalf, exCustBlank]

/-- Supplier with no preferred display name at all. -/
def exSuppNone : Supplier :=
  { name := "SU-1", supplier_name := none, supplier_group := none
    mobile_no := none, custom_lat := none, custom_lon := none }

/-- Flow edges used to exercise the width scaling: amounts 100 and 50. -/
def exEdgeA : FlowEdge :=
  { supplier := "S1", company := "C1", amount := 100
    sup_lat := 2, sup_lon := 3, comp_lat := 4, comp_lon := 5 }

def exEdgeB : FlowEdge :=
  { supplier := "S2", company := "C2", amount := 50
    sup_lat := 6, sup_lon := 7, comp_lat := 8, comp_lon := 9 }

def exEdges : List FlowEdge := [exEdgeA, exEdgeB]

lemma take_append_drop_length {α : Type} (d : List α) (S : Nat) :
    d.take S ++ d.drop (d.take S).length = d := by
  rcases le_or_lt S d.length with h | h
  · rw [List.length_take, min_eq_left h, List.take_append_drop]
  · rw [List.take_of_length_le h.le]
    simp

lemma fetchFrom_eq_drop {α : Type} (rows : List α) (S : Nat) (hS : 0 < S) :
    ∀ off, fetchFrom rows S off = rows.drop off := by
  have key : ∀ n off, rows.length - off ≤ n → fetchFrom rows S off = rows.drop off := by
    intro n
    induction n with
    | zero =>
        intro off h
        have hdrop : rows.drop off = [] := List.drop_eq_nil_of_le (by omega)
        rw [fetchFrom]
        simp [pageAt, hdrop]
    | succ n ih =>
        intro off h
        rw [fetchFrom]
        by_cases hp : (pageAt rows S off).isEmpty
        · simp only [hp, dite_true]
          simp only [pageAt, List.isEmpty_eq_true, List.take_eq_nil_iff] at hp
          rcases hp with hp | hp
          · omega
          · exact hp.symm
        · simp only [hp, Bool.false_eq_true, dite_false]
          simp only [pageAt, List.isEmpty_eq_true] at hp
          have h1 : rows.drop off ≠ [] := fun hd => hp (by simp [hd])
          have h2 : off < rows.length := by
            by_contra hle
            exact h1 (List.drop_eq_nil_of_le (by omega))
          have h3 : 0 < ((rows.drop off).take S).length :=
            List.length_pos.mpr (by simpa using hp)
          have hrec := ih (off + (pageAt rows S off).length) (by
            simp only [pageAt] at h3 ⊢
            omega)
          rw [hrec]
          have hdd : rows.drop (off + (pageAt rows S off).length) =
              (rows.drop off).drop ((rows.drop off).take S).length := by
            rw [List.drop_drop]
            simp only [pageAt]
          rw [hdd]
          exact take_append_drop_length (rows.drop off) S
  intro off
  exact key (rows.length - off) off le_rfl

lemma fetchTrace_headD {α : Type} (rows : List α) (S off : Nat) :
    (fetchTrace rows S off).getD 0 0 = off := by
  rw [fetchTrace]
  split <;> simp

lemma fetchTrace_step {α : Type} (rows : List α) (S : Nat) :
    ∀ off i, i + 1 < (fetchTrace rows S off).length →
      (fetchTrace rows S off).getD (i + 1) 0 =
        (fetchTrace rows S off).getD i 0 +
          (pageAt rows S ((fetchTrace rows S off).getD i 0)).length := by
  have key : ∀ n off, rows.length - off ≤ n →
      ∀ i, i + 1 < (fetchTrace rows S off).length →
        (fetchTrace rows S off).getD (i + 1) 0 =
          (fetchTrace rows S off).getD i 0 +
            (pageAt rows S ((fetchTrace rows S off).getD i 0)).length := by
    intro n
    induction n with
    | zero =>
        intro off h i hi
        have hdrop : rows.drop off = [] := List.drop_eq_nil_of_le (by omega)
        rw [fetchTrace] at hi
        simp [pageAt, hdrop] at hi
    | succ n ih =>
        intro off h i hi
        by_cases hp : (pageAt rows S off).isEmpty
        · rw [fetchTrace] at hi
          simp [hp] at hi
        · have hlen : 0 < (pageAt rows S off).length := by
            rcases List.isEmpty_eq_false.mp (by simpa using hp) |> List.length_pos.mpr with hx
            exact hx
          have h2 : off < rows.length := by
            by_contra hle
            have : rows.drop off = [] := List.drop_eq_nil_of_le (by omega)
            simp [pageAt, this] at hp
          have hbound : rows.length - (off + (pageAt rows S off).length) ≤ n := by omega
          rw [fetchTrace]
          simp only [hp, Bool.false_eq_true, dite_false]
          match i with
          | 0 =>
              simp only [List.getD_cons_succ, List.getD_cons_zero]
              rw [fetchTrace_headD]
          | j + 1 =>
              simp only [List.getD_cons_succ]
              apply ih _ hbound
              rw [fetchTrace] at hi
              simp only [hp, Bool.false_eq_true, dite_false, List.length_cons] at hi
              omega
  intro off
  exact key (rows.length - off) off le_rfl

/-- C1 (counterexample): the spec claims the fetcher stops as soon as a page
comes back empty OR strictly shorter than the most recently returned page.
On the script `[[0,1],[2]]` the second page (index 1, length 1 < 2) is
short, so under the claim at most `1 + 1 = 2` requests would be issued; the
loop in the source stops only on an empty page and actually issues 3
requests (it asks for one more page after the short one). -/
theorem c1_counterexample :
    firstShortOrEmpty none [[0, 1], [2]] = some 1 ∧
      ¬ fetchCalls [[0, 1], [2]] ≤ 1 + 1 := by
  constructor
  · rfl
  · decide

/-- C1 (amended): for every scripted page sequence, the fetched result is
the concatenation of the pages strictly before the first empty page (for
the spec scenarios `[P,P,P,k<P]` and `[P,P,0]` this is exactly the
concatenation of all non-empty pages), and the loop issues exactly one
request per leading non-empty page plus the final request that returns the
empty page: no page is requested after an empty page, but one further
page IS requested after a short non-empty page. -/
theorem c1_amended {α : Type} (script : List (List α)) :
    fetchRun script = (script.takeWhile (fun p => !p.isEmpty)).flatten ∧
      fetchCalls script = (script.takeWhile (fun p => !p.isEmpty)).length + 1 := by
  induction script with
  | nil => exact ⟨rfl, rfl⟩
  | cons p rest ih =>
      show (if p.isEmpty then [] else p ++ fetchRun rest) = _ ∧
        (if p.isEmpty then 1 else 1 + fetchCalls rest) = _
      rw [List.takeWhile_cons]
      by_cases hp : p.isEmpty
      · simp [hp]
      · simp only [hp, Bool.false_eq_true, Bool.not_false, if_true, if_false,
          List.flatten_cons, List.length_cons, ih.1, ih.2]
        exact ⟨trivial, by omega⟩

/-- C2: if the server ignores the requested page-size hint and serves pages
of effective size `S > 0` from a finite backing row set, the pagination
loop terminates (`fetchFrom` is a total function), covers the full backing
set, and each requested offset equals the previous offset plus the number
of rows actually received there (not `i × page_size`). -/
theorem c2_capped_server {α : Type} (rows : List α) (S : Nat) (hS : 0 < S) :
    fetchFrom rows S 0 = rows ∧
      ∀ i, i + 1 < (fetchTrace rows S 0).length →
        (fetchTrace rows S 0).getD (i + 1) 0 =
          (fetchTrace rows S 0).getD i 0 +
            (pageAt rows S ((fetchTrace rows S 0).getD i 0)).length := by
  constructor
  · simpa using fetchFrom_eq_drop rows S hS 0
  · exact fetchTrace_step rows S 0

/-- Witness for C2 at a concrete input: backing set `[10,20,30]`, server cap
`S = 2`; the fetch returns the full set and the second requested offset is
the first plus the 2 rows received. -/
theorem c2_capped_server_witness :
    fetchFrom [10, 20, 30] 2 0 = [10, 20, 30] ∧
      (fetchTrace [10, 20, 30] 2 0).getD 1 0 =
        (fetchTrace [10, 20, 30] 2 0).getD 0 0 +
          (pageAt [10, 20, 30] 2 ((fetchTrace [10, 20, 30] 2 0).getD 0 0)).length := by
  have h := c2_capped_server [10, 20, 30] 2 (by decide)
  refine ⟨h.1, h.2 0 ?_⟩
  rw [fetchTrace, fetchTrace, fetchTrace]
  simp [pageAt]

/-- C3: with an empty company list, `fetch_invoices` and
`fetch_purchase_invoices` return an empty table, issue no query to the
server (empty request list), and — being total functions — raise no
exception (the `if not companies` guards on lines 181-182 and 292-293
return before any request). -/
theorem c3_empty_companies (db : List Invoice) (pdb : List PurchaseInvoice)
    (start stop : Option Int) (drafts : Bool) (extra : List Filter) :
    fetch_invoices db [] start stop drafts extra = ([], []) ∧
      fetch_purchase_invoices pdb [] start stop drafts = ([], []) :=
  ⟨rfl, rfl⟩

/-- C4: every normalized row of `fetch_invoices` satisfies
`base_outstanding = outstanding_amount * conversion_rate`, where the
normalizer treats a missing/unparseable conversion rate as 1.0 and a
missing/unparseable outstanding amount as 0.0; `normalizeInvoice` is total,
so the computation never raises when `conversion_rate` is absent. -/
theorem c4_currency_invariant (db : List Invoice) (companies : List String)
    (start stop : Option Int) (drafts : Bool) (extra : List Filter)
    (r : NormInvoice) (hr : r ∈ (fetch_invoices db companies start stop drafts extra).1) :
    r.base_outstanding = r.outstanding_amount * r.conversion_rate ∧
      ∀ inv : Invoice,
        (normalizeInvoice inv).conversion_rate = inv.conversion_rate.getD 1 ∧
          (normalizeInvoice inv).outstanding_amount = inv.outstanding_amount.getD 0 ∧
          (normalizeInvoice inv).base_outstanding =
            inv.outstanding_amount.getD 0 * inv.conversion_rate.getD 1 := by
  constructor
  · unfold fetch_invoices at hr
    by_cases hc : companies.isEmpty
    · simp [hc] at hr
    · simp only [hc, Bool.false_eq_true, if_false] at hr
      obtain ⟨inv, _, rfl⟩ := List.mem_map.mp hr
      rfl
  · intro inv
    exact ⟨rfl, rfl, rfl⟩

/-- Witness for C4: the scenario invoice with outstanding 200 and rate 1 is
in the fetched table and satisfies the invariant. -/
theorem c4_currency_invariant_witness :
    normalizeInvoice exInv1 ∈ (fetch_invoices exSalesDb ["Co"] none none false []).1 ∧
      (normalizeInvoice exInv1).base_outstanding =
        (normalizeInvoice exInv1).outstanding_amount *
          (normalizeInvoice exInv1).conversion_rate := by
  have hsel : exInv1 ∈ fetchSelected exSalesDb ["Co"] none none false [] := by decide
  have hm : normalizeInvoice exInv1 ∈ (fetch_invoices exSalesDb ["Co"] none none false []).1 := by
    rw [(rfl : (fetch_invoices exSalesDb ["Co"] none none false []).1 =
      (fetchSelected exSalesDb ["Co"] none none false []).map normalizeInvoice)]
    exact List.mem_map_of_mem _ hsel
  exact ⟨hm, (c4_currency_invariant exSalesDb ["Co"] none none false []
    (normalizeInvoice exInv1) hm).1⟩

/-- C9: `fetch_outstanding_invoices` selects exactly the backing invoices
of the selected companies with `outstanding_amount > 0` and submitted
docstatus — no date bound appears in the membership condition and drafts
are excluded — and on the scenario {inv1: 200 submitted, inv2: 0
submitted, inv3: 50 draft} the result set is exactly {inv1}. -/
theorem c9_outstanding_snapshot (db : List Invoice) (companies : List String) :
    (∀ inv : Invoice,
        inv ∈ fetchSelected db companies none none false [Filter.outstandingGt 0] ↔
          inv ∈ db ∧ inv.company ∈ companies ∧ inv.docstatus = 1 ∧
            ∃ v, inv.outstanding_amount = some v ∧ 0 < v) ∧
      (fetch_outstanding_invoices db companies).1 =
        (fetchSelected db companies none none false [Filter.outstandingGt 0]).map
          normalizeInvoice ∧
      (fetch_outstanding_invoices exSalesDb ["Co"]).1.map (fun r => r.name) = ["INV-1"] := by
  refine ⟨?_, ?_, ?_⟩
  · intro inv
    constructor
    · intro h
      obtain ⟨co, hco, h⟩ := List.mem_flatMap.mp h
      obtain ⟨hdb, hall⟩ := List.mem_filter.mp h
      rw [List.all_eq_true] at hall
      have h1 := hall _ (by simp [invoiceFilters, swapDates] : Filter.companyEq co ∈ _)
      have h2 := hall _ (by simp [invoiceFilters, swapDates] : Filter.docstatusEq 1 ∈ _)
      have h3 := hall _ (by simp [invoiceFilters, swapDates] : Filter.outstandingGt 0 ∈ _)
      simp only [Invoice.matches, beq_iff_eq] at h1 h2
      rcases hv : inv.outstanding_amount with _ | v
      · simp [Invoice.matches, hv] at h3
      · simp only [Invoice.matches, hv, decide_eq_true_eq] at h3
        exact ⟨hdb, h1 ▸ hco, h2, v, rfl, h3⟩
    · rintro ⟨hdb, hco, hds, v, hv, hvpos⟩
      refine List.mem_flatMap.mpr ⟨inv.company, hco, List.mem_filter.mpr ⟨hdb, ?_⟩⟩
      have hfl : invoiceFilters inv.company (swapDates none none).1 (swapDates none none).2
          false [Filter.outstandingGt 0] =
          [Filter.companyEq inv.company, Filter.docstatusEq 1, Filter.outstandingGt 0] := rfl
      rw [List.all_eq_true]
      intro f hf
      rw [hfl] at hf
      simp only [List.mem_cons, List.not_mem_nil, or_false] at hf
      rcases hf with hf | hf | hf <;> subst hf
      · simp [Invoice.matches]
      · simp [Invoice.matches, hds]
      · simp [Invoice.matches, hv, hvpos]
  · cases companies with
    | nil => simp [fetch_outstanding_invoices, fetch_invoices, fetchSelected]
    | cons c cs => simp [fetch_outstanding_invoices, fetch_invoices]
  · decide

/-- C10: no fetched sales or purchase invoice is cancelled (docstatus 2):
the docstatus filter built on lines 193/304 is `docstatus in [0,1]` when
drafts are included and `docstatus = 1` otherwise, and it is part of every
constructed filter list. -/
theorem c10_cancelled_excluded (db : List Invoice) (pdb : List PurchaseInvoice)
    (companies : List String) (start stop : Option Int) (drafts : Bool)
    (extra : List Filter) (co : String) :
    (∀ inv ∈ fetchSelected db companies start stop drafts extra, inv.docstatus ≠ 2) ∧
      (∀ p ∈ fetchPurchaseSelected pdb companies start stop drafts, p.docstatus ≠ 2) ∧
      ((if drafts then Filter.docstatusIn [0, 1] else Filter.docstatusEq 1) ∈
        invoiceFilters co start stop drafts extra) := by
  refine ⟨?_, ?_, by simp [invoiceFilters]⟩
  · intro inv h
    obtain ⟨co', _, h⟩ := List.mem_flatMap.mp h
    have hall := (List.mem_filter.mp h).2
    rw [List.all_eq_true] at hall
    have hmem : (if drafts then Filter.docstatusIn [0, 1] else Filter.docstatusEq 1) ∈
        invoiceFilters co' (swapDates start stop).1 (swapDates start stop).2 drafts extra := by
      simp [invoiceFilters]
    have hd := hall _ hmem
    cases drafts <;> simp [Invoice.matches] at hd <;> omega
  · intro p h
    obtain ⟨co', _, h⟩ := List.mem_flatMap.mp h
    have hall := (List.mem_filter.mp h).2
    rw [List.all_eq_true] at hall
    have hmem : (if drafts then Filter.docstatusIn [0, 1] else Filter.docstatusEq 1) ∈
        invoiceFilters co' (swapDates start stop).1 (swapDates start stop).2 drafts [] := by
      simp [invoiceFilters]
    have hd := hall _ hmem
    cases drafts <;> simp [PurchaseInvoice.matches] at hd <;> omega

/-- Witness for C10: the submitted scenario invoice is fetched and its
docstatus is not 2. -/
theorem c10_cancelled_excluded_witness :
    exInv1 ∈ fetchSelected exSalesDb ["Co"] none none false [] ∧ exInv1.docstatus ≠ 2 := by
  have hm : exInv1 ∈ fetchSelected exSalesDb ["Co"] none none false [] := by decide
  exact ⟨hm, (c10_cancelled_excluded exSalesDb [] ["Co"] none none false [] "Co").1 exInv1 hm⟩

lemma validCoord_iff (la lo : Option ℚ) :
    validCoord la lo = true ↔
      la.isSome = true ∧ lo.isSome = true ∧ ¬(la = some 0 ∧ lo = some 0) := by
  cases la <;> cases lo <;> simp [validCoord] <;> tauto

lemma validCoord_getD {la lo : Option ℚ} (h : validCoord la lo = true) :
    ¬(la.getD 0 = 0 ∧ lo.getD 0 = 0) := by
  cases la <;> cases lo <;> simp [validCoord] at h ⊢ <;> tauto

/-- C5: `filter_valid_coords` keeps a row exactly when both coordinates
parse (are present) and the pair is not (0,0); consequently every row of
the customer and supplier plot sets has valid coordinates, and no flow
edge has (0,0) at either endpoint. -/
theorem c5_coordinate_filter {α : Type} (rows : List α) (lat lon : α → Option ℚ) (r : α) :
    (r ∈ filter_valid_coords rows lat lon ↔
        r ∈ rows ∧ (lat r).isSome = true ∧ (lon r).isSome = true ∧
          ¬(lat r = some 0 ∧ lon r = some 0)) ∧
      (∀ (cdb : List Customer) (row : CustomerRow), row ∈ plotCustomers cdb →
        validCoord row.custom_lat row.custom_lon = true) ∧
      (∀ (sdb : List Supplier) (row : SupplierRow), row ∈ plotSuppliers sdb →
        validCoord row.custom_lat row.custom_lon = true) ∧
      (∀ (pinv : List PurchaseInvoice) (sdb : List Supplier) (cdb : List Company)
        (e : FlowEdge), e ∈ flows pinv sdb cdb →
          ¬(e.sup_lat = 0 ∧ e.sup_lon = 0) ∧ ¬(e.comp_lat = 0 ∧ e.comp_lon = 0)) := by
  refine ⟨?_, ?_, ?_, ?_⟩
  · rw [filter_valid_coords, List.mem_filter, validCoord_iff]
  · intro cdb row h
    exact (List.mem_filter.mp h).2
  · intro sdb row h
    exact (List.mem_filter.mp h).2
  · intro pinv sdb cdb e he
    rw [flows] at he
    split at he
    · simp at he
    · obtain ⟨sc, _, he⟩ := List.mem_flatMap.mp he
      rw [flowEdgesFor] at he
      obtain ⟨srow, hs, he⟩ := List.mem_flatMap.mp he
      obtain ⟨crow, hcr, rfl⟩ := List.mem_map.mp he
      have hsv : validCoord srow.custom_lat srow.custom_lon = true :=
        (List.mem_filter.mp ((List.mem_filter.mp hs).1)).2
      have hcv : validCoord crow.custom_lat crow.custom_lon = true :=
        (List.mem_filter.mp ((List.mem_filter.mp hcr).1)).2
      exact ⟨validCoord_getD hsv, validCoord_getD hcv⟩

/-- Witness for C5: the customer with coordinates (1,2) is kept and is in
the plot set, while the (0,0) customer and the half-missing customer are
dropped. -/
theorem c5_coordinate_filter_witness :
    customerRow exCustGood ∈ plotCustomers exCustDb ∧
      validCoord (customerRow exCustGood).custom_lat (customerRow exCustGood).custom_lon = true ∧
      customerRow exCustZero ∉ plotCustomers exCustDb ∧
      customerRow exCustHalf ∉ plotCustomers exCustDb := by
  have hmem : customerRow exCustGood ∈ plotCustomers exCustDb := by decide
  refine ⟨hmem, ?_, by decide, by decide⟩
  exact (c5_coordinate_filter (list_customers exCustDb)
    (fun r => r.custom_lat) (fun r => r.custom_lon) (customerRow exCustGood)).2.1 exCustDb
    (customerRow exCustGood) hmem

/-- C6: the display name of a customer/supplier row falls back to the
unique identifier `name` when the preferred display-name field is absent
or the empty string, and is the preferred name unchanged otherwise. -/
theorem c6_display_name_fallback (db : List Customer) (sdb : List Supplier)
    (c : Customer) (s : Supplier) :
    (c ∈ db → customerRow c ∈ list_customers db) ∧
      ((c.customer_name = none ∨ c.customer_name = some "") →
        (customerRow c).display_customer = c.name) ∧
      (∀ t, c.customer_name = some t → t ≠ "" →
        (customerRow c).display_customer = t) ∧
      (s ∈ sdb → supplierRow s ∈ list_suppliers sdb) ∧
      ((s.supplier_name = none ∨ s.supplier_name = some "") →
        (supplierRow s).display_supplier = s.name) ∧
      (∀ t, s.supplier_name = some t → t ≠ "" →
        (supplierRow s).display_supplier = t) := by
  refine ⟨fun h => List.mem_map_of_mem _ h, ?_, ?_, fun h => List.mem_map_of_mem _ h, ?_, ?_⟩
  · rintro (h | h) <;> simp [customerRow, displayName, h]
  · intro t ht hne
    simp [customerRow, displayName, ht, hne]
  · rintro (h | h) <;> simp [supplierRow, displayName, h]
  · intro t ht hne
    simp [supplierRow, displayName, ht, hne]

/-- Witness for C6: a blank display name falls back to the identifier, an
absent one falls back to the identifier, a non-blank one is kept. -/
theorem c6_display_name_fallback_witness :
    (customerRow exCustBlank).display_customer = "CU-4" ∧
      (customerRow exCustGood).display_customer = "Alpha" ∧
      (supplierRow exSuppNone).display_supplier = "SU-1" := by
  refine ⟨?_, ?_, ?_⟩
  · exact (c6_display_name_fallback [] [] exCustBlank exSuppNone).2.1 (Or.inr rfl)
  · exact (c6_display_name_fallback [] [] exCustGood exSuppNone).2.2.1 "Alpha" rfl (by decide)
  · exact (c6_display_name_fallback [] [] exCustGood exSuppNone).2.2.2.2.1 (Or.inl rfl)

lemma filter_name_length {α : Type} (l : List α) (f : α → String) (s : String) :
    (l.map f).Nodup →
      (l.filter (fun x => f x == s)).length =
        if l.any (fun x => f x == s) then 1 else 0 := by
  induction l with
  | nil => intro _; rfl
  | cons a t ih =>
      intro hf
      rw [List.map_cons, List.nodup_cons] at hf
      simp only [List.filter_cons, List.any_cons]
      by_cases ha : (f a == s) = true
      · rw [if_pos ha]
        have hfa : f a = s := by simpa using ha
        have ht : t.filter (fun x => f x == s) = [] := by
          rw [List.filter_eq_nil_iff]
          intro x hx hbeq
          apply hf.1
          have hxs : f x = s := by simpa using hbeq
          rw [hfa, ← hxs]
          exact List.mem_map_of_mem f hx
        simp [ht, ha]
      · rw [if_neg ha]
        have ha2 : (f a == s) = false := by simpa using ha
        simp only [ha2, Bool.false_or]
        exact ih hf.2

lemma length_flatMap_map {α β γ : Type} (l1 : List α) (l2 : List β) (g : α → β → γ) :
    (l1.flatMap (fun a => l2.map (g a))).length = l1.length * l2.length := by
  induction l1 with
  | nil => simp
  | cons a t ih =>
      rw [List.flatMap_cons, List.length_append, List.length_map, ih, List.length_cons]
      ring

lemma key_of_mem_flowEdgesFor {pinv : List PurchaseInvoice} {supp : List SupplierRow}
    {comp : List Company} {sc : String × String} {e : FlowEdge}
    (he : e ∈ flowEdgesFor pinv supp comp sc) :
    e.supplier = sc.1 ∧ e.company = sc.2 ∧ e.amount = pairAmount pinv sc.1 sc.2 := by
  rw [flowEdgesFor] at he
  obtain ⟨srow, _, he⟩ := List.mem_flatMap.mp he
  obtain ⟨crow, _, rfl⟩ := List.mem_map.mp he
  exact ⟨rfl, rfl, rfl⟩

lemma filter_key_flatMap (pairs : List (String × String))
    (F : String × String → List FlowEdge)
    (hkey : ∀ sc e, e ∈ F sc → e.supplier = sc.1 ∧ e.company = sc.2) (s c : String) :
    pairs.Nodup →
      ((pairs.flatMap F).filter (fun e => e.supplier == s && e.company == c)).length =
        if (s, c) ∈ pairs then (F (s, c)).length else 0 := by
  induction pairs with
  | nil => intro _; simp
  | cons sc t ih =>
      intro hnd
      rw [List.nodup_cons] at hnd
      rw [List.flatMap_cons, List.filter_append, List.length_append]
      by_cases hsc : sc = (s, c)
      · subst hsc
        have h1 : (F (s, c)).filter (fun e => e.supplier == s && e.company == c) = F (s, c) := by
          rw [List.filter_eq_self]
          intro e hemem
          obtain ⟨he1, he2⟩ := hkey (s, c) e hemem
          simp [he1, he2]
        have h2 : ((t.flatMap F).filter
            (fun e => e.supplier == s && e.company == c)).length = 0 := by
          rw [ih hnd.2, if_neg hnd.1]
        rw [h1, h2, if_pos (List.mem_cons_self _ _)]
        omega
      · have h1 : (F sc).filter (fun e => e.supplier == s && e.company == c) = [] := by
          rw [List.filter_eq_nil_iff]
          intro e hemem hbeq
          obtain ⟨he1, he2⟩ := hkey sc e hemem
          apply hsc
          obtain ⟨hb1e, hb2e⟩ : e.supplier = s ∧ e.company = c := by simpa using hbeq
          obtain ⟨a, b⟩ := sc
          simp only at he1 he2
          rw [Prod.mk.injEq]
          exact ⟨by rw [← he1, hb1e], by rw [← he2, hb2e]⟩
        rw [h1]
        simp only [List.length_nil, Nat.zero_add]
        rw [ih hnd.2]
        by_cases hm : (s, c) ∈ t
        · rw [if_pos hm, if_pos (List.mem_cons_of_mem _ hm)]
        · rw [if_neg hm, if_neg (by
            rw [List.mem_cons]
            rintro (h | h)
            · exact hsc h.symm
            · exact hm h)]

lemma flowPairs_mem_iff (pinv : List PurchaseInvoice) (s c : String) :
    (s, c) ∈ flowPairs pinv ↔ ∃ p ∈ pinv, p.supplier = some s ∧ p.company = c := by
  rw [flowPairs, List.mem_dedup, List.mem_filterMap]
  constructor
  · rintro ⟨p, hp, hmap⟩
    rw [Option.map_eq_some'] at hmap
    obtain ⟨a, ha, hab⟩ := hmap
    rw [Prod.mk.injEq] at hab
    exact ⟨p, hp, by rw [ha, hab.1], hab.2⟩
  · rintro ⟨p, hp, hps, hpc⟩
    exact ⟨p, hp, by simp [hps, hpc]⟩

lemma supp_any_iff (sdb : List Supplier) (s : String) :
    (suppCoordsOf sdb).any (fun r => r.name == s) = true ↔
      ∃ srow ∈ sdb, srow.name = s ∧ validCoord srow.custom_lat srow.custom_lon = true := by
  rw [List.any_eq_true]
  constructor
  · rintro ⟨r, hr, hbeq⟩
    obtain ⟨hr1, hr2⟩ := List.mem_filter.mp hr
    obtain ⟨sup, hsup, rfl⟩ := List.mem_map.mp hr1
    exact ⟨sup, hsup, by simpa using hbeq, hr2⟩
  · rintro ⟨sup, hsup, hname, hvalid⟩
    refine ⟨supplierRow sup, List.mem_filter.mpr ⟨List.mem_map_of_mem _ hsup, hvalid⟩, ?_⟩
    simpa using hname

lemma comp_any_iff (cdb : List Company) (c : String) :
    (compCoordsOf cdb).any (fun r => r.name == c) = true ↔
      ∃ crow ∈ cdb, crow.name = c ∧ validCoord crow.custom_lat crow.custom_lon = true := by
  rw [List.any_eq_true]
  constructor
  · rintro ⟨r, hr, hbeq⟩
    obtain ⟨hr1, hr2⟩ := List.mem_filter.mp hr
    exact ⟨r, hr1, by simpa using hbeq, hr2⟩
  · rintro ⟨crow, hcrow, hname, hvalid⟩
    exact ⟨crow, List.mem_filter.mpr ⟨hcrow, hvalid⟩, by simpa using hname⟩

lemma flowQualifies_iff (pinv : List PurchaseInvoice) (sdb : List Supplier)
    (cdb : List Company) (s c : String) :
    flowQualifies pinv sdb cdb s c ↔
      ((s, c) ∈ flowPairs pinv ∧
        (suppCoordsOf sdb).any (fun r => r.name == s) = true ∧
        (compCoordsOf cdb).any (fun r => r.name == c) = true) := by
  rw [flowQualifies]
  exact and_congr (flowPairs_mem_iff pinv s c).symm
    (and_congr (supp_any_iff sdb s).symm (comp_any_iff cdb c).symm)

/-- C7: under unique supplier and company identifiers, the flow join
produces exactly one edge per (supplier, company) pair that has purchase
rows in the period and whose supplier and company both have valid
coordinates — a pair whose supplier or company lacks valid coordinates is
silently dropped (count 0) — and every produced edge carries the summed
amount of its pair. -/
theorem c7_flow_join (pinv : List PurchaseInvoice) (sdb : List Supplier)
    (cdb : List Company) (hs : (sdb.map (fun x => x.name)).Nodup)
    (hc : (cdb.map (fun x => x.name)).Nodup) :
    (∀ e ∈ flows pinv sdb cdb, e.amount = pairAmount pinv e.supplier e.company) ∧
      ∀ s c,
        ((flows pinv sdb cdb).filter
          (fun e => e.supplier == s && e.company == c)).length =
        if flowQualifies pinv sdb cdb s c then 1 else 0 := by
  have hsupnd : ((suppCoordsOf sdb).map (fun x => x.name)).Nodup := by
    have h1 : (list_suppliers sdb).map (fun x => x.name) = sdb.map (fun x => x.name) := by
      rw [list_suppliers, List.map_map]
      rfl
    have h2 : ((list_suppliers sdb).map (fun x => x.name)).Nodup := by rw [h1]; exact hs
    exact ((List.filter_sublist _).map _).nodup h2
  have hcompnd : ((compCoordsOf cdb).map (fun x => x.name)).Nodup :=
    ((List.filter_sublist _).map _).nodup hc
  constructor
  · intro e he
    rw [flows] at he
    split at he
    · simp at he
    · obtain ⟨sc, _, he⟩ := List.mem_flatMap.mp he
      obtain ⟨h1, h2, h3⟩ := key_of_mem_flowEdgesFor he
      rw [h1, h2, h3]
  · intro s c
    rw [flows]
    split
    · rename_i hguard
      have hnq : ¬ flowQualifies pinv sdb cdb s c := by
        rintro ⟨⟨p, hp, _, _⟩, ⟨srow, hsrow, _, hsv⟩, ⟨crow, hcrow, _, hcv⟩⟩
        have hguard3 : (pinv = [] ∨ compCoordsOf cdb = []) ∨ suppCoordsOf sdb = [] := by
          simpa using hguard
        rcases hguard3 with (h | h) | h
        · rw [h] at hp
          simp at hp
        · have hcm : crow ∈ compCoordsOf cdb := List.mem_filter.mpr ⟨hcrow, hcv⟩
          rw [h] at hcm
          simp at hcm
        · have hsm : supplierRow srow ∈ suppCoordsOf sdb :=
            List.mem_filter.mpr ⟨List.mem_map_of_mem _ hsrow, hsv⟩
          rw [h] at hsm
          simp at hsm
      rw [if_neg hnq]
      simp
    · rw [filter_key_flatMap (flowPairs pinv) _
        (fun sc e he => ⟨(key_of_mem_flowEdgesFor he).1, (key_of_mem_flowEdgesFor he).2.1⟩)
        s c (List.nodup_dedup _)]
      rw [flowEdgesFor, length_flatMap_map]
      rw [filter_name_length _ _ s hsupnd, filter_name_length _ _ c hcompnd]
      rw [if_congr (flowQualifies_iff pinv sdb cdb s c) rfl rfl]
      by_cases h1 : (s, c) ∈ flowPairs pinv <;>
        by_cases h2 : (suppCoordsOf sdb).any (fun r => r.name == s) = true <;>
        by_cases h3 : (compCoordsOf cdb).any (fun r => r.name == c) = true <;>
        simp [h1, h2, h3]

/-- Witness for C7: the spec scenario — purchase rows (S1,C1,100) and
(S2,C2,50), supplier coordinates only for S1, company coordinates for both
C1 and C2 — yields exactly one S1→C1 edge, no S2→C2 edge, and the S1→C1
group sum is 100. -/
theorem c7_flow_join_witness :
    ((flows exPinv exSdb exCdb).filter
      (fun e => e.supplier == "S1" && e.company == "C1")).length = 1 ∧
      ((flows exPinv exSdb exCdb).filter
        (fun e => e.supplier == "S2" && e.company == "C2")).length = 0 ∧
      pairAmount exPinv "S1" "C1" = 100 := by
  have h := c7_flow_join exPinv exSdb exCdb (by decide) (by decide)
  refine ⟨?_, ?_, ?_⟩
  · rw [h.2 "S1" "C1", if_pos (by decide)]
  · rw [h.2 "S2" "C2", if_neg (by decide)]
  · simp [pairAmount, exPinv, exP1, exP2]

/-- C8: for a non-empty flow result set, the width of a flow row is the
proportional value `amount / max * (2·base)` clipped into
`[base, 2·base]` — linear in `amount / max` between the configured minimum
width and double that minimum — and when the maximum amount is zero (or
negative) every row gets the minimum width; the row carrying the maximum
amount gets exactly double the minimum. -/
theorem c8_flow_width (es : List FlowEdge) (base : ℚ) (e : FlowEdge)
    (he : e ∈ es) (hbase : 0 < base) :
    (maxAmount (es.map (fun x => x.amount)) = 0 → flowWidth es base e = base) ∧
      (0 < maxAmount (es.map (fun x => x.amount)) →
        flowWidth es base e =
          min (max (e.amount / maxAmount (es.map (fun x => x.amount)) * (base * 2)) base)
            (base * 2) ∧
        base ≤ flowWidth es base e ∧
        flowWidth es base e ≤ base * 2 ∧
        (e.amount = maxAmount (es.map (fun x => x.amount)) →
          flowWidth es base e = base * 2)) := by
  constructor
  · intro hm
    rw [flowWidth, if_neg (by rw [hm]; exact lt_irrefl 0)]
  · intro hm
    have hw : flowWidth es base e =
        min (max (e.amount / maxAmount (es.map (fun x => x.amount)) * (base * 2)) base)
          (base * 2) := by
      rw [flowWidth, if_pos hm]
    have hb2 : base ≤ base * 2 := by linarith
    refine ⟨hw, ?_, ?_, ?_⟩
    · rw [hw]
      exact le_min (le_max_right _ _) hb2
    · rw [hw]
      exact min_le_right _ _
    · intro heq
      rw [hw, heq, div_self (ne_of_gt hm), one_mul,
        max_eq_left hb2, min_self]

/-- Witness for C8: edges with amounts 100 and 50 and base width 4 — the
maximum-amount edge gets width 8 = 2·4. -/
theorem c8_flow_width_witness : flowWidth exEdges 4 exEdgeA = 4 * 2 := by
  have h := c8_flow_width exEdges 4 exEdgeA (by decide) (by norm_num)
  exact (h.2 (by decide)).2.2.2 (by decide)

end MoneyFlow
